import Mathlib

/-!
# Verification of the playlist-converter track-matching core

Shallow embedding of the track-matching search coordinator of
`backend/app/services/soundcloud.py` (`SoundCloudService.search_track` and its
similarity helpers) and of the resilience utilities of
`backend/app/services/utils.py` (`CircuitBreaker`, `RateLimiter`,
`normalize_text`).

Modelling conventions:
* Python floats are modelled as exact rationals (`ℚ`).  Every concrete
  similarity value appearing in a theorem below is far from the thresholds it
  is compared against, so exact arithmetic and IEEE arithmetic agree on all
  comparisons performed.
* Text functions model the ASCII fragment of the Python string functions
  (`str.lower`, `str.isalnum`, `str.isspace`, `\w`, `\s`); all concrete
  inputs used in theorems are ASCII.
* `difflib.SequenceMatcher.ratio()` is embedded below without the autojunk
  heuristic, which only affects second arguments of length ≥ 200; all strings
  handled here are far shorter.
-/

/- The Batteries rational-number operations are sealed; unseal them so that
concrete similarity values evaluate inside `decide`. -/
attribute [local semireducible] Rat.add Rat.mul Rat.inv Rat.sub

set_option maxRecDepth 40000

/-- Python `str.isspace` on the ASCII fragment (the whitespace characters
`re`'s `\s` matches: space, tab, newline, carriage return, vertical tab,
form feed). -/
def pyIsSpace (c : Char) : Bool :=
  c = ' ' || c = '\t' || c = '\n' || c = '\r' || c = Char.ofNat 11 || c = Char.ofNat 12

/-- Python `str.isalnum` on the ASCII fragment. -/
def pyIsAlnum (c : Char) : Bool :=
  ('a' ≤ c && c ≤ 'z') || ('A' ≤ c && c ≤ 'Z') || ('0' ≤ c && c ≤ '9')

/-- A `\w` word character (ASCII fragment): alphanumeric or underscore. -/
def pyIsWord (c : Char) : Bool :=
  pyIsAlnum c || c = '_'

/-- Split a character list into maximal runs of characters satisfying `keep`,
dropping separator characters: the common core of Python `str.split()` (with
`keep` = non-whitespace) and `re.findall(r'\w+', s)` (with `keep` = word
characters).  `acc` holds the current run, reversed. -/
def runsAux (keep : Char → Bool) : List Char → List Char → List (List Char)
  | [], acc => if acc.isEmpty then [] else [acc.reverse]
  | c :: cs, acc =>
      if keep c then runsAux keep cs (c :: acc)
      else if acc.isEmpty then runsAux keep cs []
      else acc.reverse :: runsAux keep cs []

/-- Maximal runs of characters satisfying `keep`. -/
def runsOf (keep : Char → Bool) (s : List Char) : List (List Char) :=
  runsAux keep s []

/-- Join word lists with single spaces: `' '.join(words)`. -/
def joinWords : List (List Char) → List Char
  | [] => []
  | [w] => w
  | w :: ws => w ++ ' ' :: joinWords ws

/-- Embedding of `utils.normalize_text` (utils.py lines 13–23): keep alphanumeric and
whitespace characters, lowercase them, then collapse whitespace via
`' '.join(s.split())`. -/
def normalize_text (s : String) : String :=
  if s = "" then ""
  else
    let kept := (s.data.filter (fun c => pyIsAlnum c || pyIsSpace c)).map Char.toLower
    String.mk (joinWords (runsOf (fun c => !pyIsSpace c) kept))

/-- Length of the common run of `a` and `b` starting at positions `i`, `j`,
with `j` below the bound `bhi` and `i` allowed to advance `fuel` more steps
(difflib's notion of a matching run). -/
def runLenAux (a b : List Char) (bhi : Nat) : Nat → Nat → Nat → Nat
  | 0, _, _ => 0
  | fuel + 1, i, j =>
      if j < bhi ∧ a.getD i (Char.ofNat 0) = b.getD j (Char.ofNat 0) then
        runLenAux a b bhi fuel (i + 1) (j + 1) + 1
      else 0

/-- Length of the common run of `a` and `b` starting at positions `i`, `j`,
inside the index bounds `ahi`, `bhi`. -/
def runLen (a b : List Char) (ahi bhi : Nat) (i j : Nat) : Nat :=
  runLenAux a b bhi (ahi - i) i j

/-- Embedding of `difflib.SequenceMatcher.find_longest_match` on the slice
`a[alo:ahi]`, `b[blo:bhi]` with no junk: the longest matching run, tie-broken
by smallest start in `a`, then smallest start in `b` (exactly the block the
Python scan returns, which records the first run reaching the maximal
length while scanning `a`-indices ascending and `b`-indices ascending). -/
def findLongest (a b : List Char) (alo ahi blo bhi : Nat) : Nat × Nat × Nat :=
  (List.range' alo (ahi - alo)).foldl
    (fun best i =>
      (List.range' blo (bhi - blo)).foldl
        (fun best j =>
          let k := runLen a b ahi bhi i j
          if k > best.2.2 then (i, j, k) else best)
        best)
    (alo, blo, 0)

/-- Total number of matched characters of
`difflib.SequenceMatcher.get_matching_blocks` on the given slice: recursively
take the longest match and recurse on the pieces to its left and right.
`fuel` bounds the recursion depth; `(ahi - alo) + (bhi - blo)` always
suffices because each recursive call strictly shrinks the combined slice
length. -/
def matchTotal (a b : List Char) : Nat → Nat → Nat → Nat → Nat → Nat
  | 0, _, _, _, _ => 0
  | fuel + 1, alo, ahi, blo, bhi =>
      let m := findLongest a b alo ahi blo bhi
      if m.2.2 = 0 then 0
      else
        matchTotal a b fuel alo m.1 blo m.2.1 + m.2.2 +
          matchTotal a b fuel (m.1 + m.2.2) ahi (m.2.1 + m.2.2) bhi

/-- Embedding of `difflib.SequenceMatcher(None, a, b).ratio()`: `2*M / (len a + len b)`
where `M` is the total size of the matching blocks. -/
def seqSim (a b : List Char) : ℚ :=
  if a.length + b.length = 0 then 0
  else
    (2 * (matchTotal a b (a.length + b.length) 0 a.length 0 b.length) : ℚ) /
      (a.length + b.length)

/-- Whether `needle` occurs as a contiguous substring of `hay` (Python `in`). -/
def isSubstr (needle hay : List Char) : Bool :=
  hay.tails.any (fun t => needle.isPrefixOf t)

/-- Embedding of `SoundCloudService._calculate_similarity` (soundcloud.py lines 591–610):
0 on an empty argument; after lowercasing, 1.0 on equality;
`0.7 + 0.3 * (len short / len long)` when one string contains the other;
otherwise the `SequenceMatcher` ratio. -/
def calculate_similarity (a b : String) : ℚ :=
  if a = "" ∨ b = "" then 0
  else
    let la := a.data.map Char.toLower
    let lb := b.data.map Char.toLower
    if la = lb then 1
    else if isSubstr la lb || isSubstr lb la then
      let s := if la.length ≤ lb.length then la else lb
      let l := if la.length ≤ lb.length then lb else la
      7 / 10 + 3 / 10 * ((s.length : ℚ) / (l.length : ℚ))
    else seqSim la lb

/-- Fuel-driven first-occurrence deduplication; `fuel ≥ l.length` computes
the full result. -/
def dedupAux {α : Type} [DecidableEq α] : Nat → List α → List α
  | 0, _ => []
  | _, [] => []
  | fuel + 1, x :: xs => x :: dedupAux fuel (xs.filter (fun y => y ≠ x))

/-- First-occurrence deduplication (Python `dict.fromkeys` order /
`set` membership semantics for counting). -/
def dedupL {α : Type} [DecidableEq α] (l : List α) : List α :=
  dedupAux l.length l

/-- Embedding of `SoundCloudService._token_similarity` (soundcloud.py lines 612–627):
Jaccard ratio of the sets of `\w+` tokens of the lowercased strings. -/
def token_similarity (a b : String) : ℚ :=
  if a = "" ∨ b = "" then 0
  else
    let ta := dedupL (runsOf pyIsWord (a.data.map Char.toLower))
    let tb := dedupL (runsOf pyIsWord (b.data.map Char.toLower))
    if ta.isEmpty || tb.isEmpty then 0
    else
      let inter := (ta.filter (fun t => t ∈ tb)).length
      let union := ta.length + (tb.filter (fun t => t ∉ ta)).length
      if union > 0 then (inter : ℚ) / (union : ℚ) else 0

/-- Match the (case-insensitive) literal `p` at the head of `s`, returning the
rest on success.  `p` is given in lowercase. -/
def matchLitCI : List Char → List Char → Option (List Char)
  | [], s => some s
  | _ :: _, [] => none
  | p :: ps, c :: cs => if c.toLower = p then matchLitCI ps cs else none

/-- Match `\s+` (one or more whitespace characters, greedily) at the head of
`s`.  The noise patterns of `_clean_input` only ever follow `\s+` with a
letter, so the greedy maximal run is exactly what Python's regex engine
consumes. -/
def matchWS : List Char → Option (List Char)
  | [] => none
  | c :: cs => if pyIsSpace c then some (cs.dropWhile pyIsSpace) else none

/-- Match `a\s+b` for lowercase literals `a`, `b`. -/
def matchSeqWS (a b : String) (s : List Char) : Option (List Char) :=
  (matchLitCI a.data s).bind fun r => (matchWS r).bind fun r2 => matchLitCI b.data r2

/-- Match `official\s+(audio|video|music\s+video)`, alternatives tried in the
regex's order. -/
def matchOfficialNoise (s : List Char) : Option (List Char) :=
  (matchLitCI "official".data s).bind fun r => (matchWS r).bind fun r2 =>
    ((matchLitCI "audio".data r2).orElse fun _ =>
      (matchLitCI "video".data r2).orElse fun _ =>
        matchSeqWS "music" "video" r2)

/-- Embedding of `re.sub(pattern, '', text)`: scan left to right, delete each
non-overlapping leftmost match and continue after it.  Every matcher used
here consumes at least one character, so `fuel = s.length` suffices. -/
def subAllAux (m : List Char → Option (List Char)) : Nat → List Char → List Char
  | 0, s => s
  | _ + 1, [] => []
  | fuel + 1, c :: cs =>
      match m (c :: cs) with
      | some rest => subAllAux m fuel rest
      | none => c :: subAllAux m fuel cs

/-- Delete all matches of `m` in `s` (Python `re.sub(p, '', s)`). -/
def subAll (m : List Char → Option (List Char)) (s : List Char) : List Char :=
  subAllAux m s.length s

/-- The noise-word matchers of `_clean_input` (soundcloud.py lines 573–578),
in the order the Python list applies them. -/
def noiseMatchers : List (List Char → Option (List Char)) :=
  [ matchOfficialNoise,
    matchLitCI "explicit".data,
    matchLitCI "clean".data,
    matchLitCI "premium".data,
    matchLitCI "deluxe".data,
    matchSeqWS "album" "version",
    matchSeqWS "radio" "edit",
    matchSeqWS "original" "mix",
    matchLitCI "ft.".data,
    matchLitCI "feat.".data,
    matchLitCI "featuring".data ]

/-- Embedding of `re.sub(r'\s+', ' ', text).strip()`: collapse whitespace runs to single
spaces and trim the ends. -/
def collapseWS (s : List Char) : List Char :=
  joinWords (runsOf (fun c => !pyIsSpace c) s)

/-- The character-class step of `_clean_input`
(`re.sub(r"[^\w\s\-'&,.]", ' ', text)`): keep word characters, whitespace
and `- ' & , .`; replace everything else with a space. -/
def keepOrSpace (c : Char) : Char :=
  if pyIsWord c || pyIsSpace c || c = '-' || c = '\'' || c = '&' || c = ',' || c = '.' then c
  else ' '

/-- Embedding of `SoundCloudService._clean_input` (soundcloud.py lines 564–589): collapse
whitespace, delete the noise-word patterns in order, map the disallowed
characters to spaces, collapse whitespace again. -/
def clean_input (s : String) : String :=
  if s = "" then ""
  else
    let t1 := collapseWS s.data
    let t2 := noiseMatchers.foldl (fun acc m => subAll m acc) t1
    String.mk (collapseWS (t2.map keepOrSpace))

/-- Strip leading and trailing whitespace (Python `str.strip()`). -/
def stripWS (s : List Char) : List Char :=
  ((s.dropWhile pyIsSpace).reverse.dropWhile pyIsSpace).reverse

/-- Embedding of `re.split(r'[,&/]', s)`: split at every `, & /`, keeping empty pieces. -/
def splitSepsAux : List Char → List Char → List (List Char)
  | [], acc => [acc.reverse]
  | c :: cs, acc =>
      if c = ',' || c = '&' || c = '/' then acc.reverse :: splitSepsAux cs []
      else splitSepsAux cs (c :: acc)

/-- The artist-variant list of `search_track` (soundcloud.py lines 287–299):
for a truthy artist argument, clean it, split it on `,&/` into stripped
non-empty parts, append the whole cleaned string when absent, then append
the punctuation-stripped forms that are new and non-empty. -/
def computeArtistNames (an : Option String) : List String :=
  match an with
  | none => []
  | some s =>
      if s = "" then []
      else
        let c := clean_input s
        let parts := ((splitSepsAux c.data []).map
            (fun p => String.mk (stripWS p))).filter (fun a => a ≠ "")
        let parts := if parts.contains c then parts else parts ++ [c]
        let norm := parts.map
          (fun a => String.mk (stripWS (a.data.filter (fun ch => pyIsWord ch || pyIsSpace ch))))
        parts ++ norm.filter (fun a => a ≠ "" && !(parts.contains a))

/-- The ordered query list of `search_track` (soundcloud.py lines 306–322):
`track + primary artist` (when an artist variant exists) then the track
alone, first-occurrence deduplicated, with all quotation marks removed. -/
def searchQueries (tn : String) (an : Option String) : List String :=
  let track := clean_input tn
  let qs := (match computeArtistNames an with
    | [] => []
    | a :: _ => [track ++ " " ++ a]) ++ [track]
  (dedupL qs).map (fun q => String.mk (q.data.filter (fun c => c ≠ '"' && c ≠ '\'')))

/-- A parsed search-result record (soundcloud.py lines 453–459: `title`,
`url`, and `user.username`). -/
structure TrackInfo where
  title : String
  url : String
  username : String
deriving DecidableEq, Repr

/-- What one search query's browser interaction produced, the external
nondeterminism of the per-query block (soundcloud.py lines 334–506):
a per-query timeout (line 508), a page-load failure after retries
(line 361), any other exception in the block (line 516), or the track
elements with their per-element parse results (lines 407–464; `none` marks
an element whose extraction failed and was skipped). -/
inductive FetchOutcome where
  | timeout
  | loadFailure
  | pageError
  | elems (es : List (Option TrackInfo))
deriving DecidableEq, Repr

/-- A circuit-breaker call made by `search_track`. -/
inductive CBEvent where
  | recordFailure
  | recordSuccess
deriving DecidableEq, Repr

/-- The mutable search-loop state of `search_track`: `best_match`,
`highest_similarity`, `all_results`, `need_browser_reset`, and the
`timeout_searches` stat counter. -/
structure LoopState where
  best : Option TrackInfo
  highest : ℚ
  allResults : List TrackInfo
  needsReset : Bool
  timeoutCount : Nat
deriving DecidableEq, Repr

/-- Loop state at entry (soundcloud.py lines 280, 324–326). -/
def initState : LoopState := ⟨none, 0, [], false, 0⟩

/-- The candidate list a query contributes (soundcloud.py lines 405–464):
only the first 5 elements are processed, failed extractions are skipped, and
blacklisted URLs are dropped (line 443: `if blacklisted_urls and url in
blacklisted_urls: continue`). -/
def extractInfos (bl : List String) (es : List (Option TrackInfo)) : List TrackInfo :=
  ((es.take 5).filterMap id).filter (fun t => decide (¬ (bl ≠ [] ∧ t.url ∈ bl)))

/-- The candidates a query outcome yields after extraction and blacklist
filtering (none for a timeout or an error). -/
def extractedOf (bl : List String) : FetchOutcome → List TrackInfo
  | .elems es => extractInfos bl es
  | _ => []

/-- Embedding of `normalized_artist_name` (soundcloud.py line 475):
`normalize_text(artist_name) if artist_name else ""`, where `artist_name`
has already been replaced by its cleaned form when originally truthy. -/
def artistQueryNorm (an : Option String) : String :=
  match an with
  | none => ""
  | some s =>
      if s = "" then ""
      else
        let c := clean_input s
        if c = "" then "" else normalize_text c

/-- The combined similarity of one candidate (soundcloud.py lines 477–488):
`title_similarity * 0.7 + username_similarity * 0.3`, with the username term
only computed when `normalized_artist_name` is non-empty. -/
def combinedSim (ntn nan : String) (t : TrackInfo) : ℚ :=
  let ts := calculate_similarity ntn (normalize_text t.title)
  let us := if nan ≠ "" then calculate_similarity nan (normalize_text t.username) else 0
  ts * (7 / 10) + us * (3 / 10)

/-- The scoring loop over one query's candidates (soundcloud.py lines
477–498) applied to running state `(b, h)`: update the running best on a
strictly higher combined score, and return early — third component `true` —
as soon as an updating candidate scores above 0.8 (line 496). -/
def scoreCandidates (ntn nan : String) : List TrackInfo → Option TrackInfo → ℚ →
    Option TrackInfo × ℚ × Bool
  | [], b, h => (b, h, false)
  | t :: ts, b, h =>
      let c := combinedSim ntn nan t
      if c > h then
        if c > 4 / 5 then (some t, c, true)
        else scoreCandidates ntn nan ts (some t) c
      else scoreCandidates ntn nan ts b h

/-- What processing one query does to the loop: continue with a new state,
or return a value from `search_track`. -/
inductive QueryStep where
  | cont (st : LoopState)
  | ret (st : LoopState) (r : Option TrackInfo)
deriving DecidableEq, Repr

/-- One iteration of the query loop of `search_track` (soundcloud.py lines
331–520) with the two undefined names of the scoring block resolved to the
definitions present in the source (`normalize_text` from utils.py, and
`_calculate_similarity` for the missing `_similarity`): a timeout sets
`need_browser_reset`, bumps the timeout counter and continues (lines
508–514); a page-load failure or any other exception sets
`need_browser_reset` and continues (lines 361–364, 516–520); otherwise the
extracted candidates are scored, returning early on an excellent match
(line 498) or on a per-query best above 0.6 (lines 501–503), and appended to
`all_results` (line 506) when the loop goes on. -/
def processQuery (bl : List String) (ntn nan : String) (st : LoopState) :
    FetchOutcome → QueryStep
  | .timeout => .cont { st with needsReset := true, timeoutCount := st.timeoutCount + 1 }
  | .loadFailure => .cont { st with needsReset := true }
  | .pageError => .cont { st with needsReset := true }
  | .elems es =>
      let infos := extractInfos bl es
      if infos.isEmpty then .cont st
      else
        match scoreCandidates ntn nan infos st.best st.highest with
        | (b, h, true) => .ret { st with best := b, highest := h } b
        | (b, h, false) =>
            if h > 3 / 5 then .ret { st with best := b, highest := h } b
            else .cont { st with best := b, highest := h, allResults := st.allResults ++ infos }

/-- One iteration of the query loop exactly as the source runs (claim C1):
the module never imports `normalize_text`, so line 474 raises `NameError`
the moment a query has extracted at least one usable candidate; the
per-query `except Exception` handler (line 516) absorbs it, sets
`need_browser_reset`, and continues — no candidate is ever scored and
`all_results` is never extended. -/
def processQueryRaw (bl : List String) (st : LoopState) : FetchOutcome → QueryStep
  | .timeout => .cont { st with needsReset := true, timeoutCount := st.timeoutCount + 1 }
  | .loadFailure => .cont { st with needsReset := true }
  | .pageError => .cont { st with needsReset := true }
  | .elems es =>
      let infos := extractInfos bl es
      if infos.isEmpty then .cont st
      else .cont { st with needsReset := true }

/-- Run the query loop over the query indices, threading the state and
stopping at the first early return. -/
def runQueries (step : LoopState → FetchOutcome → QueryStep) (env : Nat → FetchOutcome) :
    List Nat → LoopState → LoopState × Option (Option TrackInfo)
  | [], st => (st, none)
  | i :: is, st =>
      match step st (env i) with
      | .ret st' r => (st', some r)
      | .cont st' => runQueries step env is st'

/-- The observable outcome of one `search_track` call: the returned value,
the circuit-breaker calls made, the final loop state, whether an early
return fired, and the `successful_searches` / `failed_searches` stat
increments. -/
structure SearchOutcome where
  result : Option TrackInfo
  cbEvents : List CBEvent
  state : LoopState
  earlyExit : Bool
  successCount : Nat
  failureCount : Nat
deriving DecidableEq, Repr

/-- The tail of `search_track` (soundcloud.py lines 522–538): an early
return propagates as-is; otherwise a recorded best match is returned
(line 523 — with no threshold on its score), else the first collected
result is the fallback (line 529), else the miss is counted and
`circuit_breaker.record_failure()` is called (lines 536–537).  The success
paths make no circuit-breaker call. -/
def finishSearch : LoopState × Option (Option TrackInfo) → SearchOutcome
  | (st, some r) => ⟨r, [], st, true, 0, 0⟩
  | (st, none) =>
      match st.best with
      | some b => ⟨some b, [], st, false, 1, 0⟩
      | none =>
          match st.allResults with
          | r :: _ => ⟨some r, [], st, false, 1, 0⟩
          | [] => ⟨none, [CBEvent.recordFailure], st, false, 0, 1⟩

/-- Embedding of `search_track` with the scoring block's undefined names resolved to the
source's own `normalize_text` and `_calculate_similarity` (the behaviour of
the cited scoring and decision blocks on the data that reaches them; claims
C3–C8).  `env i` is the browser's outcome for the `i`-th query.  The rate
limiter (lines 257–265) is not modelled here: its errors are swallowed and
it never changes the result or the circuit-breaker calls. -/
def search_track_scored (tn : String) (an : Option String) (bl : List String)
    (env : Nat → FetchOutcome) : SearchOutcome :=
  let ntn := normalize_text (clean_input tn)
  let nan := artistQueryNorm an
  finishSearch (runQueries (processQuery bl ntn nan) env
    (List.range (searchQueries tn an).length) initState)

/-- Embedding of `search_track` exactly as the source runs (claim C1), behind its two
gates: a circuit-breaker rejection returns `None` with no breaker call
(lines 251–254), a failed browser initialisation records a failure and
returns `None` (lines 267–277), and otherwise the query loop runs with the
scoring block raising `NameError` (see `processQueryRaw`). -/
def search_track (cbAllows browserOk : Bool) (tn : String) (an : Option String)
    (bl : List String) (env : Nat → FetchOutcome) : SearchOutcome :=
  if !cbAllows then ⟨none, [], initState, false, 0, 0⟩
  else if !browserOk then ⟨none, [CBEvent.recordFailure], initState, false, 0, 1⟩
  else finishSearch (runQueries (processQueryRaw bl) env
    (List.range (searchQueries tn an).length) initState)

/-- The circuit-breaker states (utils.py line 95: `CLOSED`, `OPEN`,
`HALF-OPEN`). -/
inductive CBState where
  | closed
  | opened
  | halfOpen
deriving DecidableEq, Repr

/-- Embedding of `utils.CircuitBreaker` (utils.py lines 67–156).  Wall-clock instants are
rationals; every `time.time()` read inside one method call is modelled as
the single instant `now` passed to it. -/
structure CircuitBreaker where
  failure_threshold : Nat
  cooling_period : ℚ
  half_open_timeout : ℚ
  failures : Nat
  state : CBState
  last_failure_time : ℚ
  total_calls : Nat
  successful_calls : Nat
  failed_calls : Nat
  rejected_calls : Nat
  circuit_opened_count : Nat
deriving DecidableEq, Repr

/-- Embedding of `CircuitBreaker.__init__` (utils.py lines 76–103). -/
def CircuitBreaker.init (thr : Nat) (cool half : ℚ) : CircuitBreaker :=
  ⟨thr, cool, half, 0, .closed, 0, 0, 0, 0, 0, 0⟩

/-- Embedding of `CircuitBreaker.record_success` (utils.py lines 105–111). -/
def CircuitBreaker.record_success (cb : CircuitBreaker) : CircuitBreaker :=
  let cb := { cb with failures := 0 }
  let cb := if cb.state = .halfOpen then { cb with state := .closed } else cb
  { cb with successful_calls := cb.successful_calls + 1 }

/-- Embedding of `CircuitBreaker.record_failure` (utils.py lines 113–126) at instant
`now`. -/
def CircuitBreaker.record_failure (now : ℚ) (cb : CircuitBreaker) : CircuitBreaker :=
  let cb := { cb with
    failures := cb.failures + 1
    last_failure_time := now
    failed_calls := cb.failed_calls + 1 }
  if cb.state = .closed ∧ cb.failures ≥ cb.failure_threshold then
    { cb with state := .opened, circuit_opened_count := cb.circuit_opened_count + 1 }
  else if cb.state = .halfOpen then
    { cb with state := .opened, last_failure_time := now }
  else cb

/-- Embedding of `CircuitBreaker.can_execute` (utils.py lines 128–147) at instant `now`:
the returned decision and the updated breaker.  Note line 146’s comment
says the HALF-OPEN state "allows one test call", yet the code returns
`True` on every call while HALF-OPEN. -/
def CircuitBreaker.can_execute (now : ℚ) (cb : CircuitBreaker) : Bool × CircuitBreaker :=
  let cb := { cb with total_calls := cb.total_calls + 1 }
  match cb.state with
  | .closed => (true, cb)
  | .opened =>
      if now - cb.last_failure_time ≥ cb.cooling_period then
        (true, { cb with state := .halfOpen })
      else
        (false, { cb with rejected_calls := cb.rejected_calls + 1 })
  | .halfOpen => (true, cb)

/-- Embedding of `utils.RateLimiter` (utils.py lines 158–230): a token bucket.  The float
token count is an exact rational. -/
structure RateLimiter where
  rate : ℚ
  burst : ℚ
  tokens : ℚ
  last_refill : ℚ
  allowed_requests : Nat
  limited_requests : Nat
  total_requests : Nat
deriving DecidableEq, Repr

/-- Embedding of `RateLimiter.__init__` (utils.py lines 165–181) at construction instant
`now`: a full bucket. -/
def RateLimiter.init (rate burst now : ℚ) : RateLimiter :=
  ⟨rate, burst, burst, now, 0, 0, 0⟩

/-- Embedding of `RateLimiter.acquire` (utils.py lines 183–208) at instant `now`: refill
`tokens = min(burst, tokens + elapsed*rate)`, then take `n` tokens if
available. -/
def RateLimiter.acquire (now n : ℚ) (rl : RateLimiter) : Bool × RateLimiter :=
  let rl := { rl with total_requests := rl.total_requests + 1 }
  let rl := { rl with
    tokens := min rl.burst (rl.tokens + (now - rl.last_refill) * rl.rate)
    last_refill := now }
  if rl.tokens ≥ n then
    (true, { rl with tokens := rl.tokens - n, allowed_requests := rl.allowed_requests + 1 })
  else
    (false, { rl with limited_requests := rl.limited_requests + 1 })

/-- Embedding of `RateLimiter.wait_for_token` (utils.py lines 210–221): repeatedly call
`acquire` (sleeping in between) until it succeeds.  `times` lists the
instants of the successive attempts, which the cooperative sleeps determine
externally; the loop's only state changes are its `acquire` calls. -/
def RateLimiter.wait_for_token (n : ℚ) : RateLimiter → List ℚ → RateLimiter
  | rl, [] => rl
  | rl, t :: ts =>
      if (RateLimiter.acquire t n rl).1 then (RateLimiter.acquire t n rl).2
      else RateLimiter.wait_for_token n (RateLimiter.acquire t n rl).2 ts

/-- An operation issued against a `RateLimiter`: one `acquire(n)` call at an
instant, or one `wait_for_token(n)` call attempting at the given
instants. -/
inductive RLOp where
  | acq (now : ℚ) (n : ℚ)
  | wait (n : ℚ) (times : List ℚ)
deriving DecidableEq, Repr

/-- The token amount an operation requests. -/
def RLOp.amount : RLOp → ℚ
  | .acq _ n => n
  | .wait n _ => n

/-- The instants at which an operation touches the limiter. -/
def RLOp.instants : RLOp → List ℚ
  | .acq t _ => [t]
  | .wait _ ts => ts

/-- All instants of a trace, in order. -/
def traceInstants : List RLOp → List ℚ
  | [] => []
  | op :: ops => op.instants ++ traceInstants ops

/-- Run a sequence of rate-limiter operations. -/
def runRLOps : RateLimiter → List RLOp → RateLimiter
  | rl, [] => rl
  | rl, .acq t n :: rest => runRLOps (RateLimiter.acquire t n rl).2 rest
  | rl, .wait n ts :: rest => runRLOps (RateLimiter.wait_for_token n rl ts) rest

/-- Holds when `t0` is at most every instant of `l` and `l` is nondecreasing: the wall clock
does not run backwards across the trace. -/
def instantsMono : ℚ → List ℚ → Prop
  | _, [] => True
  | t0, t :: ts => t0 ≤ t ∧ instantsMono t ts

/-- Decidability of `instantsMono`, so concrete traces can be checked by
evaluation. -/
def instantsMonoDec : (t0 : ℚ) → (l : List ℚ) → Decidable (instantsMono t0 l)
  | _, [] => .isTrue trivial
  | t0, t :: ts =>
      haveI : Decidable (instantsMono t ts) := instantsMonoDec t ts
      inferInstanceAs (Decidable (t0 ≤ t ∧ instantsMono t ts))

instance (t0 : ℚ) (l : List ℚ) : Decidable (instantsMono t0 l) :=
  instantsMonoDec t0 l

def candHelloBa : TrackInfo := ⟨"hello", "https://soundcloud.com/t1", "ba"⟩
def candHelloAb : TrackInfo := ⟨"hello", "https://soundcloud.com/t2", "ab"⟩
def envImmediate : Nat → FetchOutcome :=
  fun i => if i = 0 then .elems [some candHelloBa, some candHelloAb] else .elems []

def envSingleGood : Nat → FetchOutcome :=
  fun i => if i = 0 then .elems [some candHelloBa] else .elems []

def candQqqq : TrackInfo := ⟨"qqqq", "u1", "w"⟩
def candBa : TrackInfo := ⟨"ba", "u2", "w"⟩
def envLowScores : Nat → FetchOutcome :=
  fun i => if i = 0 then .elems [some candQqqq, some candBa] else .elems []

def candSeqHigh : TrackInfo := ⟨"abq cdq", "u1", "w"⟩
def candTokenPerfect : TrackInfo := ⟨"cd ab", "u2", "w"⟩
def envTokenRescue : Nat → FetchOutcome :=
  fun i => if i = 0 then .elems [some candSeqHigh, some candTokenPerfect] else .elems []

def candZz : TrackInfo := ⟨"zz", "u3", "qq"⟩
def envTimeoutThenHit : Nat → FetchOutcome :=
  fun i => if i = 0 then .timeout else if i = 1 then .elems [some candZz] else .elems []

def envOneCand : Nat → FetchOutcome :=
  fun i => if i = 0 then .elems [some candZz] else .elems []

def candZzW : TrackInfo := ⟨"zz", "u4", "w"⟩
def envTimeoutSecond : Nat → FetchOutcome :=
  fun i => if i = 0 then .elems [] else if i = 1 then .timeout else .elems []
def envBreak : Nat → FetchOutcome :=
  fun i => if i = 0 then .elems [some candZzW] else .elems []

def cbThree : CircuitBreaker := CircuitBreaker.init 3 30 5
def cbTripped : CircuitBreaker :=
  CircuitBreaker.record_failure 0 (CircuitBreaker.record_failure 0 (CircuitBreaker.record_failure 0 cbThree))


/-! ## Helper lemmas about the scoring loop -/

theorem scoreCandidates_early_isSome (ntn nan : String) (l : List TrackInfo) :
    ∀ (b : Option TrackInfo) (h : ℚ),
      (scoreCandidates ntn nan l b h).2.2 = true →
      ∃ t, (scoreCandidates ntn nan l b h).1 = some t := by
  induction l with
  | nil => intro b h hx; simp [scoreCandidates] at hx
  | cons t ts ih =>
      intro b h hx
      simp only [scoreCandidates] at hx ⊢
      by_cases h1 : combinedSim ntn nan t > h
      · rw [if_pos h1] at hx ⊢
        by_cases h2 : combinedSim ntn nan t > 4 / 5
        · rw [if_pos h2] at hx ⊢
          exact ⟨t, rfl⟩
        · rw [if_neg h2] at hx ⊢
          exact ih _ _ hx
      · rw [if_neg h1] at hx ⊢
        exact ih _ _ hx

theorem scoreCandidates_none (ntn nan : String) (l : List TrackInfo) :
    ∀ (b : Option TrackInfo) (h : ℚ),
      (scoreCandidates ntn nan l b h).1 = none →
      b = none ∧ (scoreCandidates ntn nan l b h).2.1 = h
        ∧ (scoreCandidates ntn nan l b h).2.2 = false := by
  induction l with
  | nil => intro b h hx; exact ⟨hx, rfl, rfl⟩
  | cons t ts ih =>
      intro b h hx
      simp only [scoreCandidates] at hx ⊢
      by_cases h1 : combinedSim ntn nan t > h
      · rw [if_pos h1] at hx ⊢
        by_cases h2 : combinedSim ntn nan t > 4 / 5
        · rw [if_pos h2] at hx; cases hx
        · rw [if_neg h2] at hx ⊢
          rcases ih _ _ hx with ⟨hb, _, _⟩
          cases hb
      · rw [if_neg h1] at hx ⊢
        exact ih _ _ hx

theorem scoreCandidates_mem (ntn nan : String) (l : List TrackInfo) :
    ∀ (b : Option TrackInfo) (h : ℚ) (t : TrackInfo),
      (scoreCandidates ntn nan l b h).1 = some t →
      b = some t ∨ t ∈ l := by
  induction l with
  | nil => intro b h t hx; exact Or.inl hx
  | cons hd ts ih =>
      intro b h t hx
      simp only [scoreCandidates] at hx
      by_cases h1 : combinedSim ntn nan hd > h
      · rw [if_pos h1] at hx
        by_cases h2 : combinedSim ntn nan hd > 4 / 5
        · rw [if_pos h2] at hx
          cases hx
          exact Or.inr (List.mem_cons_self _ _)
        · rw [if_neg h2] at hx
          rcases ih _ _ _ hx with hb | hmem
          · cases hb; exact Or.inr (List.mem_cons_self _ _)
          · exact Or.inr (List.mem_cons_of_mem _ hmem)
      · rw [if_neg h1] at hx
        rcases ih _ _ _ hx with hb | hmem
        · exact Or.inl hb
        · exact Or.inr (List.mem_cons_of_mem _ hmem)

/-! ## Helper lemmas about the final decision block -/

theorem finishSearch_state (p : LoopState × Option (Option TrackInfo)) :
    (finishSearch p).state = p.1 := by
  obtain ⟨st, opt⟩ := p
  cases opt with
  | some r => rfl
  | none =>
      rcases hb : st.best with _ | b
      · rcases ha : st.allResults with _ | ⟨r, rest⟩ <;> simp [finishSearch, hb, ha]
      · simp [finishSearch, hb]

theorem finishSearch_earlyExit_none (p : LoopState × Option (Option TrackInfo))
    (h : (finishSearch p).earlyExit = false) : p.2 = none := by
  obtain ⟨st, opt⟩ := p
  cases opt with
  | some r => simp [finishSearch] at h
  | none => rfl

theorem finishSearch_notfound (st : LoopState) (hb : st.best = none)
    (ha : st.allResults = []) :
    finishSearch (st, none) = ⟨none, [CBEvent.recordFailure], st, false, 0, 1⟩ := by
  simp [finishSearch, hb, ha]

theorem finishSearch_result_cases (p : LoopState × Option (Option TrackInfo))
    (t : TrackInfo) (h : (finishSearch p).result = some t) :
    p.2 = some (some t) ∨ p.1.best = some t ∨ t ∈ p.1.allResults := by
  obtain ⟨⟨stb, sth, sta, stn, stt⟩, opt⟩ := p
  cases opt with
  | some r => exact Or.inl (congrArg some h)
  | none =>
      cases stb with
      | some b => exact Or.inr (Or.inl h)
      | none =>
          cases sta with
          | nil => cases h
          | cons r rest =>
              refine Or.inr (Or.inr ?_)
              cases h
              exact List.mem_cons_self _ _

theorem finishSearch_events_cases (st : LoopState) :
    (finishSearch (st, none)).result = none ∧ (finishSearch (st, none)).cbEvents = [CBEvent.recordFailure]
    ∨ (finishSearch (st, none)).result ≠ none ∧ (finishSearch (st, none)).cbEvents = [] := by
  rcases hb : st.best with _ | b
  · rcases ha : st.allResults with _ | ⟨r, rest⟩
    · left; rw [finishSearch_notfound st hb ha]; exact ⟨rfl, rfl⟩
    · right; simp [finishSearch, hb, ha]
  · right; simp [finishSearch, hb]

/-! ## Helper lemmas about the raw (NameError) query loop -/

theorem processQueryRaw_cont (bl : List String) (st : LoopState) (o : FetchOutcome) :
    ∃ st', processQueryRaw bl st o = QueryStep.cont st'
      ∧ st'.best = st.best
      ∧ st'.allResults = st.allResults
      ∧ (st.needsReset = true → st'.needsReset = true)
      ∧ (extractedOf bl o ≠ [] → st'.needsReset = true) := by
  cases o with
  | timeout => exact ⟨_, rfl, rfl, rfl, fun _ => rfl, fun _ => rfl⟩
  | loadFailure => exact ⟨_, rfl, rfl, rfl, fun _ => rfl, fun _ => rfl⟩
  | pageError => exact ⟨_, rfl, rfl, rfl, fun _ => rfl, fun _ => rfl⟩
  | elems es =>
      by_cases he : (extractInfos bl es).isEmpty
      · refine ⟨st, ?_, rfl, rfl, fun hh => hh,
          fun hne => absurd (List.isEmpty_iff.mp he) hne⟩
        simp [processQueryRaw, he]
      · refine ⟨{ st with needsReset := true }, ?_, rfl, rfl, fun _ => rfl, fun _ => rfl⟩
        simp [processQueryRaw, he]

theorem runQueriesRaw_main (bl : List String) (env : Nat → FetchOutcome) (is : List Nat) :
    ∀ st : LoopState,
      (runQueries (processQueryRaw bl) env is st).2 = none
      ∧ (runQueries (processQueryRaw bl) env is st).1.best = st.best
      ∧ (runQueries (processQueryRaw bl) env is st).1.allResults = st.allResults
      ∧ (st.needsReset = true → (runQueries (processQueryRaw bl) env is st).1.needsReset = true)
      ∧ (∀ i ∈ is, extractedOf bl (env i) ≠ [] →
          (runQueries (processQueryRaw bl) env is st).1.needsReset = true) := by
  induction is with
  | nil =>
      intro st
      refine ⟨rfl, rfl, rfl, fun hh => hh, ?_⟩
      intro i hi
      cases hi
  | cons j js ih =>
      intro st
      obtain ⟨st', hstep, hbest, hall, hmono, hset⟩ := processQueryRaw_cont bl st (env j)
      have hrun : runQueries (processQueryRaw bl) env (j :: js) st
          = runQueries (processQueryRaw bl) env js st' := by
        simp [runQueries, hstep]
      rw [hrun]
      obtain ⟨ih1, ih2, ih3, ih4, ih5⟩ := ih st'
      refine ⟨ih1, by rw [ih2, hbest], by rw [ih3, hall], fun hh => ih4 (hmono hh), ?_⟩
      intro i hi hne
      rcases List.mem_cons.mp hi with hij | hmem
      · subst hij
        exact ih4 (hset hne)
      · exact ih5 i hmem hne

/-- C1: with the circuit breaker allowing the call and the browser
initialised, any `search_track` call in which at least one query extracts a
usable candidate ends in the NotFound branch: the scoring block's undefined
name (`normalize_text` is never imported; `_similarity` does not exist)
raises on every query that has candidates, the per-query handler absorbs it
and advances, so nothing is ever scored, `best_match` and `all_results` stay
empty, `record_failure` is called and `None` is returned (with the browser
reset flagged). -/
theorem c1_undefined_name_forces_notfound (cbA brO : Bool) (tn : String)
    (an : Option String) (bl : List String) (env : Nat → FetchOutcome)
    (hcb : cbA = true) (hbr : brO = true)
    (hcand : ∃ i ∈ List.range (searchQueries tn an).length,
      extractedOf bl (env i) ≠ []) :
    (search_track cbA brO tn an bl env).result = none
    ∧ (search_track cbA brO tn an bl env).cbEvents = [CBEvent.recordFailure]
    ∧ (search_track cbA brO tn an bl env).state.best = none
    ∧ (search_track cbA brO tn an bl env).state.allResults = []
    ∧ (search_track cbA brO tn an bl env).state.needsReset = true := by
  subst hcb hbr
  obtain ⟨i, hi, hne⟩ := hcand
  obtain ⟨h2, hbest, hall, _, hset⟩ :=
    runQueriesRaw_main bl env (List.range (searchQueries tn an).length) initState
  have hst : search_track true true tn an bl env
      = finishSearch (runQueries (processQueryRaw bl) env
          (List.range (searchQueries tn an).length) initState) := rfl
  set p := runQueries (processQueryRaw bl) env
    (List.range (searchQueries tn an).length) initState with hp
  have hpair : p = (p.1, none) := by
    rw [← h2]
  have hfin : finishSearch p = ⟨none, [CBEvent.recordFailure], p.1, false, 0, 1⟩ := by
    rw [hpair]
    exact finishSearch_notfound p.1 (by rw [hbest]; rfl) (by rw [hall]; rfl)
  rw [hst, hfin]
  exact ⟨rfl, rfl, hbest, hall, hset i hi hne⟩

/-- C1 witness: a concrete call whose only query extracts one candidate. -/
theorem c1_undefined_name_forces_notfound_witness :
    (search_track true true "zz" none [] envOneCand).result = none
    ∧ (search_track true true "zz" none [] envOneCand).cbEvents = [CBEvent.recordFailure]
    ∧ (search_track true true "zz" none [] envOneCand).state.best = none
    ∧ (search_track true true "zz" none [] envOneCand).state.allResults = []
    ∧ (search_track true true "zz" none [] envOneCand).state.needsReset = true :=
  c1_undefined_name_forces_notfound true true "zz" none [] envOneCand rfl rfl
    ⟨0, by decide, by decide⟩

theorem finishSearch_best (st : LoopState) (b : TrackInfo) (hb : st.best = some b) :
    (finishSearch (st, none)).result = some b := by
  obtain ⟨stb, sth, sta, stn, stt⟩ := st
  subst hb
  rfl

theorem finish_noexit_best (p : LoopState × Option (Option TrackInfo)) (b : TrackInfo)
    (hnoexit : (finishSearch p).earlyExit = false)
    (hbest : (finishSearch p).state.best = some b) :
    (finishSearch p).result = some b := by
  have h2 := finishSearch_earlyExit_none p hnoexit
  rw [finishSearch_state] at hbest
  have hpair : p = (p.1, none) := by rw [← h2]
  rw [hpair]
  rw [hpair] at hbest
  exact finishSearch_best p.1 b hbest

theorem finish_noexit_shape (p : LoopState × Option (Option TrackInfo))
    (h : (finishSearch p).earlyExit = false) :
    (finishSearch p).result
      = ((finishSearch p).state.best).orElse
          (fun _ => (finishSearch p).state.allResults.head?) := by
  obtain ⟨⟨stb, sth, sta, stn, stt⟩, opt⟩ := p
  cases opt with
  | some r => simp [finishSearch] at h
  | none =>
      cases stb with
      | some b => rfl
      | none =>
          cases sta with
          | nil => rfl
          | cons r rest => rfl

/-- C2 counterexample: at `a = "ab"`, `b = "ba"` — both non-empty, not
case-insensitively equal, neither a substring of the other — the code's
score is the bare SequenceMatcher ratio `1/2`, not the claimed blend
`0.6·tokenJaccard + 0.4·sequenceRatio = 1/5`. -/
theorem c2_counterexample :
    ("ab" : String) ≠ ""
    ∧ ("ba" : String) ≠ ""
    ∧ "ab".data.map Char.toLower ≠ "ba".data.map Char.toLower
    ∧ isSubstr ("ab".data.map Char.toLower) ("ba".data.map Char.toLower) = false
    ∧ isSubstr ("ba".data.map Char.toLower) ("ab".data.map Char.toLower) = false
    ∧ calculate_similarity "ab" "ba"
        ≠ 3 / 5 * token_similarity "ab" "ba"
            + 2 / 5 * seqSim ("ab".data.map Char.toLower) ("ba".data.map Char.toLower) := by
  decide

/-- C2 amended: for non-empty strings that are not case-insensitively equal
and where neither lowercased form contains the other, `_calculate_similarity`
returns the SequenceMatcher ratio *alone*; no token-Jaccard term is blended
in (soundcloud.py line 610). -/
theorem c2_score_is_sequence_ratio_alone (a b : String)
    (ha : a ≠ "") (hb : b ≠ "")
    (hne : a.data.map Char.toLower ≠ b.data.map Char.toLower)
    (h1 : isSubstr (a.data.map Char.toLower) (b.data.map Char.toLower) = false)
    (h2 : isSubstr (b.data.map Char.toLower) (a.data.map Char.toLower) = false) :
    calculate_similarity a b
      = seqSim (a.data.map Char.toLower) (b.data.map Char.toLower) := by
  simp only [calculate_similarity]
  rw [if_neg (by rintro (hh | hh) <;> [exact ha hh; exact hb hh])]
  rw [if_neg hne]
  rw [if_neg (by simp [h1, h2])]

/-- C2 witness for the amended theorem, at `a = "abcd"`, `b = "ba"`. -/
theorem c2_score_is_sequence_ratio_alone_witness :
    calculate_similarity "abcd" "ba"
      = seqSim ("abcd".data.map Char.toLower) ("ba".data.map Char.toLower) :=
  c2_score_is_sequence_ratio_alone "abcd" "ba" (by decide) (by decide) (by decide)
    (by decide) (by decide)

/-- C3 counterexample: a completed search with no early exit, best combined
score `7/30 ≤ 0.5`, and candidates collected (first-seen `candQqqq`) returns
the best-scoring candidate `candBa`, not the first-seen fallback the claim
requires for scores not exceeding 0.5. -/
theorem c3_counterexample :
    (search_track_scored "abcd" none [] envLowScores).earlyExit = false
    ∧ (search_track_scored "abcd" none [] envLowScores).state.highest ≤ 1 / 2
    ∧ (search_track_scored "abcd" none [] envLowScores).state.allResults.head? = some candQqqq
    ∧ (search_track_scored "abcd" none [] envLowScores).result = some candBa
    ∧ candBa ≠ candQqqq := by
  decide

/-- C3 amended: the final decision applies no 0.5 threshold — whenever the
query loop completes without an early exit and a running best match was
recorded, that candidate is returned whatever its score; only when no best
exists does the first collected candidate serve as fallback, and `NotFound`
arises only with no candidates at all (soundcloud.py lines 522–538). -/
theorem c3_best_returned_without_threshold (tn : String) (an : Option String)
    (bl : List String) (env : Nat → FetchOutcome) (b : TrackInfo)
    (hnoexit : (search_track_scored tn an bl env).earlyExit = false)
    (hbest : (search_track_scored tn an bl env).state.best = some b) :
    (search_track_scored tn an bl env).result = some b :=
  finish_noexit_best _ b hnoexit hbest

/-- C3 witness for the amended theorem: the best match of the
`envLowScores` run scores only 7/30 yet is returned. -/
theorem c3_best_returned_without_threshold_witness :
    (search_track_scored "abcd" none [] envLowScores).result = some candBa :=
  c3_best_returned_without_threshold "abcd" none [] envLowScores candBa
    (by decide) (by decide)

/-! ## Query-list facts -/

theorem searchQueries_ne_nil (tn : String) (an : Option String) :
    searchQueries tn an ≠ [] := by
  unfold searchQueries
  cases computeArtistNames an with
  | nil => simp [dedupL, dedupAux]
  | cons a as => simp [dedupL, dedupAux]

theorem searchQueries_length_pos (tn : String) (an : Option String) :
    0 < (searchQueries tn an).length :=
  List.length_pos.mpr (searchQueries_ne_nil tn an)

theorem search_track_scored_eq (tn : String) (an : Option String) (bl : List String)
    (env : Nat → FetchOutcome) :
    search_track_scored tn an bl env
      = finishSearch (runQueries
          (processQuery bl (normalize_text (clean_input tn)) (artistQueryNorm an)) env
          (List.range (searchQueries tn an).length) initState) := rfl

theorem extractInfos_single (bl : List String) (t : TrackInfo) (hbl : t.url ∉ bl) :
    extractInfos bl [some t] = [t] := by
  unfold extractInfos
  have hp : (fun x => decide (¬ (bl ≠ [] ∧ x.url ∈ bl))) t = true := by
    simp only [decide_eq_true_eq, not_and_or, not_not, ne_eq]
    exact Or.inr hbl
  simp only [List.take_succ_cons, List.take_nil, List.filterMap_cons, id_eq,
    List.filterMap_nil, List.filter_cons, hp, if_true, List.filter_nil]

/-- C4 counterexample: the candidate `candHelloBa` scores exactly
`17/20 = 0.85 ≤ 0.9`, yet the search returns it immediately, skipping the
later candidate `candHelloAb` of the same batch whose score is the perfect
`1.0` — so a score of at most 0.9 does trigger the immediate return, against
the claim. -/
theorem c4_counterexample :
    combinedSim (normalize_text (clean_input "hello")) (artistQueryNorm (some "ab"))
        candHelloBa = 17 / 20
    ∧ ¬ ((17 : ℚ) / 20 > 9 / 10)
    ∧ (search_track_scored "hello" (some "ab") [] envImmediate).result = some candHelloBa
    ∧ (search_track_scored "hello" (some "ab") [] envImmediate).earlyExit = true
    ∧ combinedSim (normalize_text (clean_input "hello")) (artistQueryNorm (some "ab"))
        candHelloAb = 1
    ∧ candHelloBa ≠ candHelloAb := by
  decide

/-- C4 amended: the immediate "excellent match" return triggers at combined
scores above 0.8 (not 0.9), for a candidate that also beats the running
best: whenever the first query yields a non-blacklisted candidate scoring
above 0.8, the search returns exactly that candidate with the early-exit
flag, regardless of anything later in the environment (soundcloud.py lines
490–498). -/
theorem c4_excellent_threshold_is_08 (tn : String) (an : Option String)
    (bl : List String) (env : Nat → FetchOutcome) (t : TrackInfo)
    (henv : env 0 = FetchOutcome.elems [some t])
    (hbl : t.url ∉ bl)
    (hscore : combinedSim (normalize_text (clean_input tn)) (artistQueryNorm an) t > 4 / 5) :
    (search_track_scored tn an bl env).result = some t
    ∧ (search_track_scored tn an bl env).earlyExit = true := by
  obtain ⟨k, hk⟩ : ∃ k, (searchQueries tn an).length = k + 1 :=
    ⟨(searchQueries tn an).length - 1,
      (Nat.succ_pred_eq_of_pos (searchQueries_length_pos tn an)).symm⟩
  have hrange : List.range (searchQueries tn an).length
      = 0 :: (List.range k).map Nat.succ := by
    rw [hk, List.range_succ_eq_map]
  have hsc : scoreCandidates (normalize_text (clean_input tn)) (artistQueryNorm an)
      [t] initState.best initState.highest
      = (some t, combinedSim (normalize_text (clean_input tn)) (artistQueryNorm an) t,
          true) := by
    simp only [scoreCandidates, initState]
    rw [if_pos (lt_trans (by norm_num) hscore), if_pos hscore]
  have hstep : processQuery bl (normalize_text (clean_input tn)) (artistQueryNorm an)
        initState (env 0)
      = QueryStep.ret
          { initState with
              best := some t
              highest := combinedSim (normalize_text (clean_input tn))
                (artistQueryNorm an) t }
          (some t) := by
    rw [henv]
    simp only [processQuery, extractInfos_single bl t hbl]
    rw [if_neg (by simp)]
    rw [hsc]
  have hrun : runQueries
        (processQuery bl (normalize_text (clean_input tn)) (artistQueryNorm an)) env
        (List.range (searchQueries tn an).length) initState
      = ({ initState with
            best := some t
            highest := combinedSim (normalize_text (clean_input tn))
              (artistQueryNorm an) t },
          some (some t)) := by
    rw [hrange]
    simp [runQueries, hstep]
  rw [search_track_scored_eq, hrun]
  exact ⟨rfl, rfl⟩

/-- C4 witness for the amended theorem: one candidate scoring 17/20 is
returned immediately. -/
theorem c4_excellent_threshold_is_08_witness :
    (search_track_scored "hello" (some "ab") [] envSingleGood).result = some candHelloBa
    ∧ (search_track_scored "hello" (some "ab") [] envSingleGood).earlyExit = true :=
  c4_excellent_threshold_is_08 "hello" (some "ab") [] envSingleGood candHelloBa
    (by decide) (by decide) (by decide)

/-- C5 counterexample: a search that exhausts its queries with best score
`7/12 ≤ 0.6` returns `candSeqHigh`, whose token-Jaccard against the query is
`0`, while `candTokenPerfect` — in the collected union, token-Jaccard `1` —
is ignored: no token-based second pass ever runs. -/
theorem c5_counterexample :
    (search_track_scored "ab cd" none [] envTokenRescue).earlyExit = false
    ∧ (search_track_scored "ab cd" none [] envTokenRescue).state.highest ≤ 3 / 5
    ∧ candTokenPerfect ∈ (search_track_scored "ab cd" none [] envTokenRescue).state.allResults
    ∧ (search_track_scored "ab cd" none [] envTokenRescue).result = some candSeqHigh
    ∧ token_similarity (normalize_text (clean_input "ab cd")) candTokenPerfect.title = 1
    ∧ token_similarity (normalize_text (clean_input "ab cd")) candSeqHigh.title = 0
    ∧ candSeqHigh ≠ candTokenPerfect := by
  decide

/-- C5 amended: `search_track` performs no second scoring pass —
`_token_similarity` is defined but never called — and when the query loop
completes without an early exit the returned value is determined by the
first-pass running best and the first collected candidate alone
(soundcloud.py lines 522–538). -/
theorem c5_no_second_pass (tn : String) (an : Option String) (bl : List String)
    (env : Nat → FetchOutcome)
    (hnoexit : (search_track_scored tn an bl env).earlyExit = false) :
    (search_track_scored tn an bl env).result
      = ((search_track_scored tn an bl env).state.best).orElse
          (fun _ => (search_track_scored tn an bl env).state.allResults.head?) :=
  finish_noexit_shape _ hnoexit

/-- C5 witness for the amended theorem, on the `envTokenRescue` run. -/
theorem c5_no_second_pass_witness :
    (search_track_scored "ab cd" none [] envTokenRescue).result
      = ((search_track_scored "ab cd" none [] envTokenRescue).state.best).orElse
          (fun _ => (search_track_scored "ab cd" none [] envTokenRescue).state.allResults.head?) :=
  c5_no_second_pass "ab cd" none [] envTokenRescue (by decide)

/-! ## Invariant lemmas for the scored query loop -/

theorem runQueries_scored_invariant (bl : List String) (ntn nan : String)
    (env : Nat → FetchOutcome) (is : List Nat) :
    ∀ st : LoopState, (st.best = none → st.highest = 0) →
      ((runQueries (processQuery bl ntn nan) env is st).1.best = none →
        (runQueries (processQuery bl ntn nan) env is st).1.highest = 0)
      ∧ (∀ r, (runQueries (processQuery bl ntn nan) env is st).2 = some r →
          ∃ t, r = some t) := by
  induction is with
  | nil =>
      intro st hinv
      exact ⟨hinv, fun r hr => by cases hr⟩
  | cons j js ih =>
      intro st hinv
      cases ho : env j with
      | timeout =>
          have hrw : runQueries (processQuery bl ntn nan) env (j :: js) st
              = runQueries (processQuery bl ntn nan) env js
                  { st with needsReset := true, timeoutCount := st.timeoutCount + 1 } := by
            simp [runQueries, processQuery, ho]
          rw [hrw]
          exact ih _ hinv
      | loadFailure =>
          have hrw : runQueries (processQuery bl ntn nan) env (j :: js) st
              = runQueries (processQuery bl ntn nan) env js
                  { st with needsReset := true } := by
            simp [runQueries, processQuery, ho]
          rw [hrw]
          exact ih _ hinv
      | pageError =>
          have hrw : runQueries (processQuery bl ntn nan) env (j :: js) st
              = runQueries (processQuery bl ntn nan) env js
                  { st with needsReset := true } := by
            simp [runQueries, processQuery, ho]
          rw [hrw]
          exact ih _ hinv
      | elems es =>
          by_cases he : (extractInfos bl es).isEmpty
          · have hrw : runQueries (processQuery bl ntn nan) env (j :: js) st
                = runQueries (processQuery bl ntn nan) env js st := by
              simp [runQueries, processQuery, ho, he]
            rw [hrw]
            exact ih _ hinv
          · rcases hsc : scoreCandidates ntn nan (extractInfos bl es) st.best st.highest
              with ⟨b', h', e⟩
            cases e with
            | true =>
                have hsome : ∃ t, b' = some t := by
                  have := scoreCandidates_early_isSome ntn nan (extractInfos bl es)
                    st.best st.highest (by rw [hsc])
                  rwa [hsc] at this
                obtain ⟨t, rfl⟩ := hsome
                have hrw : runQueries (processQuery bl ntn nan) env (j :: js) st
                    = ({ st with best := some t, highest := h' }, some (some t)) := by
                  simp [runQueries, processQuery, ho, he, hsc]
                rw [hrw]
                constructor
                · intro hbn
                  simp at hbn
                · intro r hr
                  cases hr
                  exact ⟨t, rfl⟩
            | false =>
                by_cases hg : h' > 3 / 5
                · have hbs : ∃ t, b' = some t := by
                    cases hb' : b' with
                    | some t => exact ⟨t, rfl⟩
                    | none =>
                        obtain ⟨hbn, hh, _⟩ := scoreCandidates_none ntn nan
                          (extractInfos bl es) st.best st.highest (by rw [hsc, hb'])
                        rw [hsc] at hh
                        have hh2 : h' = st.highest := hh
                        rw [hh2, hinv hbn] at hg
                        norm_num at hg
                  obtain ⟨t, rfl⟩ := hbs
                  have hrw : runQueries (processQuery bl ntn nan) env (j :: js) st
                      = ({ st with best := some t, highest := h' }, some (some t)) := by
                    simp [runQueries, processQuery, ho, he, hsc, hg]
                  rw [hrw]
                  constructor
                  · intro hbn
                    simp at hbn
                  · intro r hr
                    cases hr
                    exact ⟨t, rfl⟩
                · have hrw : runQueries (processQuery bl ntn nan) env (j :: js) st
                      = runQueries (processQuery bl ntn nan) env js
                          { st with
                              best := b'
                              highest := h'
                              allResults := st.allResults ++ extractInfos bl es } := by
                    simp [runQueries, processQuery, ho, he, hsc, hg]
                  rw [hrw]
                  refine ih _ ?_
                  intro hbn
                  have hbn' : b' = none := hbn
                  show h' = 0
                  obtain ⟨hstb, hh, _⟩ := scoreCandidates_none ntn nan
                    (extractInfos bl es) st.best st.highest (by rw [hsc, hbn'])
                  rw [hsc] at hh
                  have hh2 : h' = st.highest := hh
                  rw [hh2]
                  exact hinv hstb

/-- C6 counterexample: a search that succeeds (returns `candZzW` via the
per-query break) makes no circuit-breaker call at all — in particular
`record_success` is not invoked. -/
theorem c6_counterexample :
    (search_track_scored "zz" none [] envBreak).result = some candZzW
    ∧ (search_track_scored "zz" none [] envBreak).cbEvents = []
    ∧ CBEvent.recordSuccess ∉ (search_track_scored "zz" none [] envBreak).cbEvents := by
  decide

/-- C6 amended: `search_track` never calls `record_success` on any path; the
only circuit-breaker call of a completed search is the single
`record_failure` of the NotFound branch, made exactly when the call returns
`None` (soundcloud.py lines 522–538 contain no `record_success`). -/
theorem c6_no_success_recording (tn : String) (an : Option String) (bl : List String)
    (env : Nat → FetchOutcome) :
    CBEvent.recordSuccess ∉ (search_track_scored tn an bl env).cbEvents
    ∧ ((search_track_scored tn an bl env).cbEvents = [CBEvent.recordFailure]
        ↔ (search_track_scored tn an bl env).result = none) := by
  obtain ⟨hinv, hret⟩ := runQueries_scored_invariant bl (normalize_text (clean_input tn))
    (artistQueryNorm an) env (List.range (searchQueries tn an).length) initState
    (fun _ => rfl)
  rw [search_track_scored_eq]
  rcases hq : runQueries (processQuery bl (normalize_text (clean_input tn))
      (artistQueryNorm an)) env (List.range (searchQueries tn an).length) initState
    with ⟨st, opt⟩
  rw [hq] at hret
  cases opt with
  | some r =>
      obtain ⟨t, rfl⟩ := hret r rfl
      simp [finishSearch]
  | none =>
      obtain ⟨stb, sth, sta, stn, stt⟩ := st
      cases stb with
      | some b => simp [finishSearch]
      | none =>
          cases sta with
          | nil => simp [finishSearch]
          | cons r rest => simp [finishSearch]

/-! ## Step characterisation of the scored query loop -/

theorem processQuery_step (bl : List String) (ntn nan : String) (st : LoopState)
    (o : FetchOutcome) :
    (∃ st', processQuery bl ntn nan st o = QueryStep.cont st'
      ∧ (st.needsReset = true → st'.needsReset = true)
      ∧ st.timeoutCount ≤ st'.timeoutCount
      ∧ (o = FetchOutcome.timeout → st'.needsReset = true ∧ 1 ≤ st'.timeoutCount))
    ∨ (∃ st' r, processQuery bl ntn nan st o = QueryStep.ret st' r) := by
  cases o with
  | timeout =>
      exact Or.inl ⟨_, rfl, fun _ => rfl, Nat.le_succ _,
        fun _ => ⟨rfl, Nat.succ_le_succ (Nat.zero_le _)⟩⟩
  | loadFailure =>
      exact Or.inl ⟨_, rfl, fun _ => rfl, le_refl _, fun hh => nomatch hh⟩
  | pageError =>
      exact Or.inl ⟨_, rfl, fun _ => rfl, le_refl _, fun hh => nomatch hh⟩
  | elems es =>
      by_cases he : (extractInfos bl es).isEmpty
      · refine Or.inl ⟨st, ?_, fun hh => hh, le_refl _, fun hh => nomatch hh⟩
        simp [processQuery, he]
      · rcases hsc : scoreCandidates ntn nan (extractInfos bl es) st.best st.highest
          with ⟨b', h', e⟩
        cases e with
        | true =>
            refine Or.inr ⟨{ st with best := b', highest := h' }, b', ?_⟩
            simp [processQuery, he, hsc]
        | false =>
            by_cases hg : h' > 3 / 5
            · refine Or.inr ⟨{ st with best := b', highest := h' }, b', ?_⟩
              simp [processQuery, he, hsc, hg]
            · refine Or.inl ⟨{ st with best := b', highest := h', allResults := st.allResults ++ extractInfos bl es },
                ?_, fun hh => hh, le_refl _, fun hh => nomatch hh⟩
              simp [processQuery, he, hsc, hg]

theorem runQueries_scored_mono (bl : List String) (ntn nan : String)
    (env : Nat → FetchOutcome) (is : List Nat) :
    ∀ st : LoopState, (runQueries (processQuery bl ntn nan) env is st).2 = none →
      (st.needsReset = true →
        (runQueries (processQuery bl ntn nan) env is st).1.needsReset = true)
      ∧ st.timeoutCount ≤ (runQueries (processQuery bl ntn nan) env is st).1.timeoutCount := by
  induction is with
  | nil => intro st _; exact ⟨fun hh => hh, le_refl _⟩
  | cons j js ih =>
      intro st hnone
      rcases processQuery_step bl ntn nan st (env j) with
        ⟨st', hstep, hns, htc, _⟩ | ⟨st', r, hstep⟩
      · have hrw : runQueries (processQuery bl ntn nan) env (j :: js) st
            = runQueries (processQuery bl ntn nan) env js st' := by
          simp [runQueries, hstep]
        rw [hrw] at hnone ⊢
        obtain ⟨m1, m2⟩ := ih st' hnone
        exact ⟨fun hh => m1 (hns hh), le_trans htc m2⟩
      · have hrw : runQueries (processQuery bl ntn nan) env (j :: js) st
            = (st', some r) := by
          simp [runQueries, hstep]
        rw [hrw] at hnone
        cases hnone

theorem runQueries_scored_timeout_flag (bl : List String) (ntn nan : String)
    (env : Nat → FetchOutcome) (is : List Nat) :
    ∀ (st : LoopState) (i : Nat), i ∈ is → env i = FetchOutcome.timeout →
      (runQueries (processQuery bl ntn nan) env is st).2 = none →
      (runQueries (processQuery bl ntn nan) env is st).1.needsReset = true
      ∧ 1 ≤ (runQueries (processQuery bl ntn nan) env is st).1.timeoutCount := by
  induction is with
  | nil => intro st i hi; cases hi
  | cons j js ih =>
      intro st i hi ht hnone
      rcases processQuery_step bl ntn nan st (env j) with
        ⟨st', hstep, hns, htc, htm⟩ | ⟨st', r, hstep⟩
      · have hrw : runQueries (processQuery bl ntn nan) env (j :: js) st
            = runQueries (processQuery bl ntn nan) env js st' := by
          simp [runQueries, hstep]
        rw [hrw] at hnone ⊢
        rcases List.mem_cons.mp hi with rfl | hmem
        · obtain ⟨hn1, hn2⟩ := htm ht
          obtain ⟨m1, m2⟩ := runQueries_scored_mono bl ntn nan env js st' hnone
          exact ⟨m1 hn1, le_trans hn2 m2⟩
        · exact ih st' i hmem ht hnone
      · have hrw : runQueries (processQuery bl ntn nan) env (j :: js) st
            = (st', some r) := by
          simp [runQueries, hstep]
        rw [hrw] at hnone
        cases hnone

/-- C7 counterexample: the first query times out, yet no
`record_failure` is made (`cbEvents = []`); the search continues with the
next query variant and succeeds, with `need_browser_reset` set and the
timeout counted. -/
theorem c7_counterexample :
    (search_track_scored "zz" (some "qq") [] envTimeoutThenHit).result = some candZz
    ∧ (search_track_scored "zz" (some "qq") [] envTimeoutThenHit).state.needsReset = true
    ∧ (search_track_scored "zz" (some "qq") [] envTimeoutThenHit).state.timeoutCount = 1
    ∧ (search_track_scored "zz" (some "qq") [] envTimeoutThenHit).cbEvents = []
    ∧ CBEvent.recordFailure ∉ (search_track_scored "zz" (some "qq") [] envTimeoutThenHit).cbEvents := by
  decide

/-- C7 amended: a per-query timeout sets the `need_browser_reset` flag and
bumps the timeout counter while the search advances (no exception
surfaces), but — against the claim — no `circuit_breaker.record_failure()`
results from the timeout itself: a completed search that returns a result
makes no breaker call at all (soundcloud.py lines 508–514). -/
theorem c7_timeout_absorbed_without_cb_failure (tn : String) (an : Option String)
    (bl : List String) (env : Nat → FetchOutcome) (i : Nat)
    (hi : i < (searchQueries tn an).length)
    (ht : env i = FetchOutcome.timeout)
    (hnoexit : (search_track_scored tn an bl env).earlyExit = false) :
    (search_track_scored tn an bl env).state.needsReset = true
    ∧ 1 ≤ (search_track_scored tn an bl env).state.timeoutCount
    ∧ ((search_track_scored tn an bl env).result ≠ none →
        (search_track_scored tn an bl env).cbEvents = []) := by
  rw [search_track_scored_eq] at hnoexit ⊢
  have H := runQueries_scored_timeout_flag bl (normalize_text (clean_input tn))
    (artistQueryNorm an) env (List.range (searchQueries tn an).length) initState i
    (List.mem_range.mpr hi) ht
  rcases hq : runQueries (processQuery bl (normalize_text (clean_input tn))
      (artistQueryNorm an)) env (List.range (searchQueries tn an).length) initState
    with ⟨st, opt⟩
  rw [hq] at H hnoexit
  have hop : opt = none := finishSearch_earlyExit_none _ hnoexit
  subst hop
  obtain ⟨h1, h2⟩ := H rfl
  rw [finishSearch_state]
  refine ⟨h1, h2, ?_⟩
  rcases finishSearch_events_cases st with ⟨hr0, _⟩ | ⟨_, he0⟩
  · intro hne; exact absurd hr0 hne
  · intro _; exact he0

/-- C7 witness for the amended theorem, on the `envTimeoutThenHit` run with
the timeout moved to the second query so the loop completes. -/
theorem c7_timeout_absorbed_without_cb_failure_witness :
    (search_track_scored "qqqq" (some "zzzz") [] envTimeoutSecond).state.needsReset = true
    ∧ 1 ≤ (search_track_scored "qqqq" (some "zzzz") [] envTimeoutSecond).state.timeoutCount
    ∧ ((search_track_scored "qqqq" (some "zzzz") [] envTimeoutSecond).result ≠ none →
        (search_track_scored "qqqq" (some "zzzz") [] envTimeoutSecond).cbEvents = []) :=
  c7_timeout_absorbed_without_cb_failure "qqqq" (some "zzzz") [] envTimeoutSecond 1
    (by decide) (by decide) (by decide)

/-! ## Blacklist invariant -/

theorem extractInfos_not_blacklisted (bl : List String) (es : List (Option TrackInfo))
    (x : TrackInfo) (hx : x ∈ extractInfos bl es) : x.url ∉ bl := by
  unfold extractInfos at hx
  have hp := (List.mem_filter.mp hx).2
  rw [decide_eq_true_eq] at hp
  intro hmem
  cases bl with
  | nil => cases hmem
  | cons b bs => exact hp ⟨List.cons_ne_nil b bs, hmem⟩

theorem runQueries_blacklist (bl : List String) (ntn nan : String)
    (env : Nat → FetchOutcome) (is : List Nat) :
    ∀ st : LoopState,
      (∀ x ∈ st.allResults, x.url ∉ bl) →
      (∀ b, st.best = some b → b.url ∉ bl) →
      (∀ x ∈ (runQueries (processQuery bl ntn nan) env is st).1.allResults, x.url ∉ bl)
      ∧ (∀ b, (runQueries (processQuery bl ntn nan) env is st).1.best = some b → b.url ∉ bl)
      ∧ (∀ t, (runQueries (processQuery bl ntn nan) env is st).2 = some (some t) →
          t.url ∉ bl) := by
  induction is with
  | nil =>
      intro st hA hB
      refine ⟨hA, hB, ?_⟩
      intro t ht
      cases ht
  | cons j js ih =>
      intro st hA hB
      cases ho : env j with
      | timeout =>
          have hrw : runQueries (processQuery bl ntn nan) env (j :: js) st
              = runQueries (processQuery bl ntn nan) env js
                  { st with needsReset := true, timeoutCount := st.timeoutCount + 1 } := by
            simp [runQueries, processQuery, ho]
          rw [hrw]
          exact ih _ hA hB
      | loadFailure =>
          have hrw : runQueries (processQuery bl ntn nan) env (j :: js) st
              = runQueries (processQuery bl ntn nan) env js
                  { st with needsReset := true } := by
            simp [runQueries, processQuery, ho]
          rw [hrw]
          exact ih _ hA hB
      | pageError =>
          have hrw : runQueries (processQuery bl ntn nan) env (j :: js) st
              = runQueries (processQuery bl ntn nan) env js
                  { st with needsReset := true } := by
            simp [runQueries, processQuery, ho]
          rw [hrw]
          exact ih _ hA hB
      | elems es =>
          by_cases he : (extractInfos bl es).isEmpty
          · have hrw : runQueries (processQuery bl ntn nan) env (j :: js) st
                = runQueries (processQuery bl ntn nan) env js st := by
              simp [runQueries, processQuery, ho, he]
            rw [hrw]
            exact ih _ hA hB
          · rcases hsc : scoreCandidates ntn nan (extractInfos bl es) st.best st.highest
              with ⟨b', h', e⟩
            have hb' : ∀ b, b' = some b → b.url ∉ bl := by
              intro b hb
              have hm := scoreCandidates_mem ntn nan (extractInfos bl es)
                st.best st.highest b (by rw [hsc, hb])
              rcases hm with hm | hm
              · exact hB b hm
              · exact extractInfos_not_blacklisted bl es b hm
            cases e with
            | true =>
                have hrw : runQueries (processQuery bl ntn nan) env (j :: js) st
                    = ({ st with best := b', highest := h' }, some b') := by
                  simp [runQueries, processQuery, ho, he, hsc]
                rw [hrw]
                refine ⟨hA, hb', ?_⟩
                intro t ht
                cases ht
                exact hb' t rfl
            | false =>
                by_cases hg : h' > 3 / 5
                · have hrw : runQueries (processQuery bl ntn nan) env (j :: js) st
                      = ({ st with best := b', highest := h' }, some b') := by
                    simp [runQueries, processQuery, ho, he, hsc, hg]
                  rw [hrw]
                  refine ⟨hA, hb', ?_⟩
                  intro t ht
                  cases ht
                  exact hb' t rfl
                · have hrw : runQueries (processQuery bl ntn nan) env (j :: js) st
                      = runQueries (processQuery bl ntn nan) env js
                          { st with
                              best := b'
                              highest := h'
                              allResults := st.allResults ++ extractInfos bl es } := by
                    simp [runQueries, processQuery, ho, he, hsc, hg]
                  rw [hrw]
                  refine ih _ ?_ hb'
                  intro x hx
                  rcases List.mem_append.mp hx with hx | hx
                  · exact hA x hx
                  · exact extractInfos_not_blacklisted bl es x hx

/-- C8: `search_track` never returns a candidate whose URL is blacklisted —
every candidate with a blacklisted URL is dropped before scoring and before
entering `all_results` (soundcloud.py lines 442–444), so neither the best
match, an early exit, nor the fallback can carry one. -/
theorem c8_blacklist_never_returned (tn : String) (an : Option String)
    (bl : List String) (env : Nat → FetchOutcome) (t : TrackInfo)
    (hres : (search_track_scored tn an bl env).result = some t) :
    t.url ∉ bl := by
  rw [search_track_scored_eq] at hres
  obtain ⟨hA, hB, hR⟩ := runQueries_blacklist bl (normalize_text (clean_input tn))
    (artistQueryNorm an) env (List.range (searchQueries tn an).length) initState
    (by intro x hx; cases hx) (by intro b hb; cases hb)
  rcases finishSearch_result_cases _ t hres with h | h | h
  · exact hR t h
  · exact hB t h
  · exact hA t h

/-- C8 witness: a concrete run with a non-empty blacklist returning
`candBa`, whose URL is indeed outside the blacklist. -/
theorem c8_blacklist_never_returned_witness : candBa.url ∉ ["https://x"] :=
  c8_blacklist_never_returned "abcd" none ["https://x"] envLowScores candBa (by decide)

/-- C9: the `HalfOpen` probe is not limited to one call.  The true part of
the claim holds — after the threshold of failures the breaker is Open,
`can_execute` rejects during cooling, and the first call after the cooling
period returns true and moves to HALF-OPEN — but the code then returns
`True` on *every* subsequent `can_execute` while HALF-OPEN (utils.py line
147), although the class docstring ("allowing a single test call", lines
71–73) and the inline comment (line 146) promise exactly one probe. -/
theorem c9_half_open_allows_every_probe :
    cbTripped.state = CBState.opened
    ∧ (cbTripped.can_execute 10).1 = false
    ∧ (cbTripped.can_execute 30).1 = true
    ∧ (cbTripped.can_execute 30).2.state = CBState.halfOpen
    ∧ ((cbTripped.can_execute 30).2.can_execute 30).1 = true
    ∧ ((cbTripped.can_execute 30).2.can_execute 30).2.state = CBState.halfOpen
    ∧ (((cbTripped.can_execute 30).2.can_execute 30).2.can_execute 31).1 = true := by
  decide

/-! ## Rate-limiter invariants -/

theorem instantsMono_weaken (t1 t0 : ℚ) (l : List ℚ) (h01 : t1 ≤ t0)
    (h : instantsMono t0 l) : instantsMono t1 l := by
  cases l with
  | nil => trivial
  | cons t ts => exact ⟨le_trans h01 h.1, h.2⟩

theorem instantsMono_append (l1 : List ℚ) :
    ∀ (t0 : ℚ) (l2 : List ℚ), instantsMono t0 (l1 ++ l2) →
      instantsMono t0 l1 ∧ ∀ x, (x = t0 ∨ x ∈ l1) → instantsMono x l2 := by
  induction l1 with
  | nil =>
      intro t0 l2 h
      refine ⟨trivial, ?_⟩
      intro x hx
      rcases hx with rfl | hx
      · exact h
      · cases hx
  | cons a l1 ih =>
      intro t0 l2 h
      obtain ⟨h1, h2⟩ := h
      obtain ⟨hm1, hm2⟩ := ih a l2 h2
      refine ⟨⟨h1, hm1⟩, ?_⟩
      intro x hx
      rcases hx with rfl | hx
      · exact instantsMono_weaken x a l2 h1 (hm2 a (Or.inl rfl))
      · rcases List.mem_cons.mp hx with rfl | hx
        · exact hm2 x (Or.inl rfl)
        · exact hm2 x (Or.inr hx)

theorem acquire_inv (rl : RateLimiter) (now n : ℚ)
    (hr : 0 ≤ rl.rate) (hlr : rl.last_refill ≤ now) (hn : 0 ≤ n)
    (h0 : 0 ≤ rl.tokens) (h1 : rl.tokens ≤ rl.burst) :
    0 ≤ (RateLimiter.acquire now n rl).2.tokens
    ∧ (RateLimiter.acquire now n rl).2.tokens ≤ (RateLimiter.acquire now n rl).2.burst
    ∧ (RateLimiter.acquire now n rl).2.burst = rl.burst
    ∧ (RateLimiter.acquire now n rl).2.rate = rl.rate
    ∧ (RateLimiter.acquire now n rl).2.last_refill = now := by
  have hb0 : (0 : ℚ) ≤ rl.burst := le_trans h0 h1
  have htk0 : 0 ≤ min rl.burst (rl.tokens + (now - rl.last_refill) * rl.rate) :=
    le_min hb0 (add_nonneg h0 (mul_nonneg (by linarith) hr))
  have htkb : min rl.burst (rl.tokens + (now - rl.last_refill) * rl.rate) ≤ rl.burst :=
    min_le_left _ _
  simp only [RateLimiter.acquire]
  split
  next hge =>
    refine ⟨?_, ?_, rfl, rfl, rfl⟩
    · show 0 ≤ min rl.burst (rl.tokens + (now - rl.last_refill) * rl.rate) - n
      have hge' : n ≤ min rl.burst (rl.tokens + (now - rl.last_refill) * rl.rate) := hge
      linarith
    · show min rl.burst (rl.tokens + (now - rl.last_refill) * rl.rate) - n ≤ rl.burst
      linarith
  next hlt =>
    exact ⟨htk0, htkb, rfl, rfl, rfl⟩

theorem wait_inv (n : ℚ) (ts : List ℚ) :
    ∀ rl : RateLimiter, 0 ≤ rl.rate → 0 ≤ n →
      0 ≤ rl.tokens → rl.tokens ≤ rl.burst →
      instantsMono rl.last_refill ts →
      0 ≤ (RateLimiter.wait_for_token n rl ts).tokens
      ∧ (RateLimiter.wait_for_token n rl ts).tokens
          ≤ (RateLimiter.wait_for_token n rl ts).burst
      ∧ (RateLimiter.wait_for_token n rl ts).burst = rl.burst
      ∧ (RateLimiter.wait_for_token n rl ts).rate = rl.rate
      ∧ ((RateLimiter.wait_for_token n rl ts).last_refill = rl.last_refill
          ∨ (RateLimiter.wait_for_token n rl ts).last_refill ∈ ts) := by
  induction ts with
  | nil =>
      intro rl _ _ h0 h1 _
      exact ⟨h0, h1, rfl, rfl, Or.inl rfl⟩
  | cons t ts ih =>
      intro rl hr hn h0 h1 hmono
      obtain ⟨hle, hmono'⟩ := hmono
      obtain ⟨a0, a1, ab, ar, alr⟩ := acquire_inv rl t n hr hle hn h0 h1
      have hstep : RateLimiter.wait_for_token n rl (t :: ts)
          = (if (RateLimiter.acquire t n rl).1 then (RateLimiter.acquire t n rl).2
             else RateLimiter.wait_for_token n (RateLimiter.acquire t n rl).2 ts) := rfl
      rcases hA : RateLimiter.acquire t n rl with ⟨ok, rl'⟩
      rw [hA] at a0 a1 ab ar alr hstep
      cases ok with
      | true =>
          have hrw : RateLimiter.wait_for_token n rl (t :: ts) = rl' := hstep
          rw [hrw]
          exact ⟨a0, a1, ab, ar, Or.inr (alr ▸ List.mem_cons_self _ _)⟩
      | false =>
          have hrw : RateLimiter.wait_for_token n rl (t :: ts)
              = RateLimiter.wait_for_token n rl' ts := hstep
          rw [hrw]
          have hmono'' : instantsMono rl'.last_refill ts := by
            rw [alr]; exact hmono'
          obtain ⟨w0, w1, wb, wr, wlr⟩ := ih rl' (by rw [ar]; exact hr) hn a0 a1 hmono''
          refine ⟨w0, w1, by rw [wb, ab], by rw [wr, ar], ?_⟩
          rcases wlr with hw | hw
          · exact Or.inr (by rw [hw, alr]; exact List.mem_cons_self _ _)
          · exact Or.inr (List.mem_cons_of_mem _ hw)

theorem runRLOps_inv (ops : List RLOp) :
    ∀ rl : RateLimiter, 0 ≤ rl.rate →
      (∀ op ∈ ops, 0 ≤ op.amount) →
      0 ≤ rl.tokens → rl.tokens ≤ rl.burst →
      instantsMono rl.last_refill (traceInstants ops) →
      0 ≤ (runRLOps rl ops).tokens
      ∧ (runRLOps rl ops).tokens ≤ (runRLOps rl ops).burst
      ∧ (runRLOps rl ops).burst = rl.burst := by
  induction ops with
  | nil =>
      intro rl _ _ h0 h1 _
      exact ⟨h0, h1, rfl⟩
  | cons op ops ih =>
      intro rl hr hamt h0 h1 hmono
      cases op with
      | acq t m =>
          obtain ⟨hle, hmono'⟩ := hmono
          have hm : (0 : ℚ) ≤ m := hamt (RLOp.acq t m) (List.mem_cons_self _ _)
          obtain ⟨a0, a1, ab, ar, alr⟩ := acquire_inv rl t m hr hle hm h0 h1
          have hrw : runRLOps rl (RLOp.acq t m :: ops)
              = runRLOps (RateLimiter.acquire t m rl).2 ops := rfl
          rw [hrw]
          obtain ⟨w0, w1, wb⟩ := ih (RateLimiter.acquire t m rl).2 (by rw [ar]; exact hr)
            (fun op hop => hamt op (List.mem_cons_of_mem _ hop))
            a0 a1 (by rw [alr]; exact hmono')
          exact ⟨w0, w1, by rw [wb, ab]⟩
      | wait m ts =>
          have hsplit := instantsMono_append ts rl.last_refill (traceInstants ops) hmono
          obtain ⟨hm1, hm2⟩ := hsplit
          have hm : (0 : ℚ) ≤ m := hamt (RLOp.wait m ts) (List.mem_cons_self _ _)
          obtain ⟨w0, w1, wb, wr, wlr⟩ := wait_inv m ts rl hr hm h0 h1 hm1
          have hrw : runRLOps rl (RLOp.wait m ts :: ops)
              = runRLOps (RateLimiter.wait_for_token m rl ts) ops := rfl
          rw [hrw]
          have hmono2 : instantsMono (RateLimiter.wait_for_token m rl ts).last_refill
              (traceInstants ops) := by
            rcases wlr with hw | hw
            · rw [hw]; exact hm2 rl.last_refill (Or.inl rfl)
            · exact hm2 _ (Or.inr hw)
          obtain ⟨z0, z1, zb⟩ := ih (RateLimiter.wait_for_token m rl ts)
            (by rw [wr]; exact hr)
            (fun op hop => hamt op (List.mem_cons_of_mem _ hop))
            w0 w1 hmono2
          exact ⟨z0, z1, by rw [zb, wb]⟩

theorem acquire_same_instant (rl : RateLimiter) (t n : ℚ) (hlr : rl.last_refill = t)
    (h1 : rl.tokens ≤ rl.burst) :
    RateLimiter.acquire t n rl
      = if rl.tokens ≥ n then
          (true, { rl with
              tokens := rl.tokens - n
              last_refill := t
              allowed_requests := rl.allowed_requests + 1
              total_requests := rl.total_requests + 1 })
        else
          (false, { rl with
              last_refill := t
              limited_requests := rl.limited_requests + 1
              total_requests := rl.total_requests + 1 }) := by
  simp only [RateLimiter.acquire]
  rw [hlr, sub_self, zero_mul, add_zero, min_eq_right h1]

theorem rapid_acquire_count (t : ℚ) :
    ∀ (k : Nat) (rl : RateLimiter), rl.last_refill = t →
      0 ≤ rl.tokens → rl.tokens ≤ rl.burst →
      0 ≤ (runRLOps rl (List.replicate k (RLOp.acq t 1))).tokens
      ∧ ((runRLOps rl (List.replicate k (RLOp.acq t 1))).allowed_requests : ℚ)
          + (runRLOps rl (List.replicate k (RLOp.acq t 1))).tokens
        = (rl.allowed_requests : ℚ) + rl.tokens := by
  intro k
  induction k with
  | zero =>
      intro rl _ h0 _
      exact ⟨h0, rfl⟩
  | succ k ih =>
      intro rl hlr h0 h1
      have hrep : List.replicate (k + 1) (RLOp.acq t 1)
          = RLOp.acq t 1 :: List.replicate k (RLOp.acq t 1) := List.replicate_succ _ _
      have hrw : runRLOps rl (List.replicate (k + 1) (RLOp.acq t 1))
          = runRLOps (RateLimiter.acquire t 1 rl).2 (List.replicate k (RLOp.acq t 1)) := by
        rw [hrep]; rfl
      rw [hrw, acquire_same_instant rl t 1 hlr h1]
      by_cases hge : rl.tokens ≥ 1
      · rw [if_pos hge]
        obtain ⟨r0, r1⟩ := ih
          { rl with
              tokens := rl.tokens - 1
              last_refill := t
              allowed_requests := rl.allowed_requests + 1
              total_requests := rl.total_requests + 1 }
          rfl (by simp only; linarith) (by simp only; linarith)
        refine ⟨r0, ?_⟩
        rw [r1]
        push_cast
        ring
      · rw [if_neg hge]
        obtain ⟨r0, r1⟩ := ih
          { rl with
              last_refill := t
              limited_requests := rl.limited_requests + 1
              total_requests := rl.total_requests + 1 }
          rfl (by simp only; exact h0) (by simp only; exact h1)
        exact ⟨r0, r1⟩

/-- C10: the token bucket stays within bounds.  Starting from a full bucket
with nonnegative rate and burst, after any sequence of `acquire(n)` and
`wait_for_token(n)` operations with `n ≥ 0` issued at nondecreasing wall
clock instants, the token count is in `[0, burst]`; and with an integer
burst `B`, any number of same-instant `acquire(1)` calls (no rate-based
refill possible) grants at most `B` of them. -/
theorem c10_token_bucket_bounds :
    (∀ (rate burst t0 : ℚ) (ops : List RLOp),
        0 ≤ rate → 0 ≤ burst →
        (∀ op ∈ ops, 0 ≤ op.amount) →
        instantsMono t0 (traceInstants ops) →
        0 ≤ (runRLOps (RateLimiter.init rate burst t0) ops).tokens
        ∧ (runRLOps (RateLimiter.init rate burst t0) ops).tokens ≤ burst)
    ∧ (∀ (B : Nat) (rate t : ℚ) (k : Nat),
        (runRLOps (RateLimiter.init rate (B : ℚ) t)
          (List.replicate k (RLOp.acq t 1))).allowed_requests ≤ B) := by
  constructor
  · intro rate burst t0 ops hr hb hamt hmono
    obtain ⟨w0, w1, wb⟩ := runRLOps_inv ops (RateLimiter.init rate burst t0) hr hamt
      hb (le_refl _) hmono
    exact ⟨w0, by rw [wb] at w1; exact w1⟩
  · intro B rate t k
    obtain ⟨r0, r1⟩ := rapid_acquire_count t k (RateLimiter.init rate (B : ℚ) t)
      rfl (by exact_mod_cast Nat.cast_nonneg B) (le_refl _)
    have hle : ((runRLOps (RateLimiter.init rate (B : ℚ) t)
        (List.replicate k (RLOp.acq t 1))).allowed_requests : ℚ) ≤ (B : ℚ) := by
      have : ((RateLimiter.init rate (B : ℚ) t).allowed_requests : ℚ)
          + (RateLimiter.init rate (B : ℚ) t).tokens = (B : ℚ) := by
        simp [RateLimiter.init]
      rw [this] at r1
      linarith
    exact_mod_cast hle

/-- C10 witness: a concrete mixed trace stays in bounds, and 4 same-instant
`acquire(1)` calls against burst 3 grant at most 3. -/
theorem c10_token_bucket_bounds_witness :
    (0 ≤ (runRLOps (RateLimiter.init (1 / 2) 3 0) [RLOp.acq 0 1, RLOp.wait 1 [2, 3]]).tokens
      ∧ (runRLOps (RateLimiter.init (1 / 2) 3 0) [RLOp.acq 0 1, RLOp.wait 1 [2, 3]]).tokens ≤ 3)
    ∧ (runRLOps (RateLimiter.init (1 / 2) ((3 : Nat) : ℚ) 0)
        (List.replicate 4 (RLOp.acq 0 1))).allowed_requests ≤ 3 :=
  ⟨c10_token_bucket_bounds.1 (1 / 2) 3 0 [RLOp.acq 0 1, RLOp.wait 1 [2, 3]]
      (by norm_num) (by norm_num) (by decide) (by decide),
    c10_token_bucket_bounds.2 3 (1 / 2) 0 4⟩
